import Mathlib

/-!
# Verification of the mathlib port-status dashboard core

This file embeds the core logic of `src/make_html.py` (port-state
classification, import-graph construction and resolution, transitive
reduction, dependency aggregation, priority sort keys, fence-commit
reconciliation, label fetching, and commit-existence checks) as Lean
definitions and settles the specified properties about them.
-/

/-- The three-valued port state, from `class PortState(Enum)`
(src/make_html.py:126-129). -/
inductive PortState
  | UNPORTED
  | IN_PROGRESS
  | PORTED
  deriving DecidableEq, Repr

/-- Modelled from the spec: a source-commit reference
`{repo: string, commit: string}` of `port_status_yaml.PortStatusEntry.Source`
(the `port_status_yaml` module is not part of the sources here). -/
structure Source where
  repo : String
  commit : String
  deriving DecidableEq, Repr

/-- Modelled from the spec: the status record
`{ported: bool, mathlib4_pr: optional int, mathlib4_file: optional path,
source: optional {repo, commit}}` supplied by the port status source
(`port_status_yaml.PortStatusEntry`, module not part of the sources here). -/
structure PortStatusEntry where
  ported : Bool
  mathlib4_pr : Option Int
  mathlib4_file : Option String
  source : Option Source
  deriving DecidableEq, Repr

/-- Python truthiness of an `Optional[int]`: `None` and `0` are falsy,
every other integer is truthy.  This is how
`if self.status.mathlib4_pr and ...` evaluates its first operand. -/
def pyTruthyIntOpt : Option Int → Bool
  | none => false
  | some n => n != 0

/-- Embeds `Mathlib3FileData.state` (src/make_html.py:170-178):

    if self.status.ported: return PortState.PORTED
    elif self.status.mathlib4_pr and self.status.source: return PortState.IN_PROGRESS
    else: return PortState.UNPORTED

A `Source` dataclass instance is always truthy in Python, so the second
operand of `and` reduces to `source.isSome`; the first operand is Python
integer truthiness. -/
def PortStatusEntry.state (s : PortStatusEntry) : PortState :=
  if s.ported then PortState.PORTED
  else if pyTruthyIntOpt s.mathlib4_pr && s.source.isSome then PortState.IN_PROGRESS
  else PortState.UNPORTED

/-- A concrete status record: not ported, pull-request id present but `0`,
source-commit reference present. -/
def prZeroEntry : PortStatusEntry :=
  { ported := false
    mathlib4_pr := some 0
    mathlib4_file := none
    source := some { repo := "leanprover-community/mathlib", commit := "aaaa" } }

/-- C1, counterexample: a record with `ported = false`, a *present*
pull-request id (namely `0`) and a present source reference is classified
`UNPORTED`, not `IN_PROGRESS` as the claim states: Python truthiness treats
the integer `0` as absent. -/
theorem state_pr_zero_not_in_progress :
    prZeroEntry.ported = false ∧
    prZeroEntry.mathlib4_pr.isSome = true ∧
    prZeroEntry.source.isSome = true ∧
    prZeroEntry.state ≠ PortState.IN_PROGRESS ∧
    prZeroEntry.state = PortState.UNPORTED := by
  decide

/-- C1, amended: the derived port state is a pure function of
`{ported, mathlib4_pr, source}`, and exactly one `PortState` is assigned:
`PORTED` iff `ported` is true; `IN_PROGRESS` iff `ported` is false, a
*nonzero* pull-request id is present, and a source reference is present;
`UNPORTED` in every other case (in particular when the pull-request id is
absent or `0`, or the source reference is absent). -/
theorem state_characterization (s t : PortStatusEntry) :
    (s.ported = t.ported → s.mathlib4_pr = t.mathlib4_pr → s.source = t.source →
      s.state = t.state) ∧
    (s.state = PortState.PORTED ↔ s.ported = true) ∧
    (s.state = PortState.IN_PROGRESS ↔
      s.ported = false ∧ (∃ n, s.mathlib4_pr = some n ∧ n ≠ 0) ∧ s.source.isSome = true) ∧
    (s.state = PortState.UNPORTED ↔
      s.ported = false ∧ (pyTruthyIntOpt s.mathlib4_pr = false ∨ s.source = none)) := by
  refine ⟨?_, ?_, ?_, ?_⟩
  · obtain ⟨p, pr, f, src⟩ := s
    obtain ⟨q, qr, g, tsrc⟩ := t
    intro h1 h2 h3
    simp only at h1 h2 h3
    subst h1; subst h2; subst h3
    rfl
  · obtain ⟨p, pr, f, src⟩ := s
    cases p <;> rcases pr with _ | n <;> rcases src with _ | x <;>
        simp [PortStatusEntry.state, pyTruthyIntOpt] <;>
      by_cases hn : n = 0 <;> simp [hn]
  · obtain ⟨p, pr, f, src⟩ := s
    cases p <;> rcases pr with _ | n <;> rcases src with _ | x <;>
        simp [PortStatusEntry.state, pyTruthyIntOpt] <;>
      by_cases hn : n = 0 <;> simp [hn]
  · obtain ⟨p, pr, f, src⟩ := s
    cases p <;> rcases pr with _ | n <;> rcases src with _ | x <;>
        simp [PortStatusEntry.state, pyTruthyIntOpt] <;>
      by_cases hn : n = 0 <;> simp [hn]

/-- Witness for `state_characterization` at two concrete records that agree
on the three relevant fields but differ on `mathlib4_file`. -/
theorem state_characterization_witness :
    ((PortStatusEntry.mk false (some 42) none (some ⟨"r", "c"⟩)).state =
      (PortStatusEntry.mk false (some 42) (some "f") (some ⟨"r", "c"⟩)).state) ∧
    ((PortStatusEntry.mk false (some 42) none (some ⟨"r", "c"⟩)).state =
        PortState.IN_PROGRESS ↔
      (false = false ∧ (∃ n : Int, some (42 : Int) = some n ∧ n ≠ 0) ∧
        (some (Source.mk "r" "c")).isSome = true)) :=
  ⟨(state_characterization (PortStatusEntry.mk false (some 42) none (some ⟨"r", "c"⟩))
      (PortStatusEntry.mk false (some 42) (some "f") (some ⟨"r", "c"⟩))).1 rfl rfl rfl,
   (state_characterization (PortStatusEntry.mk false (some 42) none (some ⟨"r", "c"⟩))
      (PortStatusEntry.mk false (some 42) none (some ⟨"r", "c"⟩))).2.2.1⟩

/-! ## Dependency counts and the priority sort key (C5, C6) -/

/-- Embeds `Mathlib3FileData.dep_counts` (src/make_html.py:179-186): for a
file whose `dependencies` were computed, the 3-tuple counting dependencies in
each `PortState`, in enum declaration order (UNPORTED, IN_PROGRESS, PORTED);
`None` when dependencies were never computed.  A dependency is represented by
its derived state. -/
def dep_counts (dependencies : Option (List PortState)) : Option (Nat × Nat × Nat) :=
  dependencies.map (fun l =>
    (l.countP (fun s => s == PortState.UNPORTED),
     l.countP (fun s => s == PortState.IN_PROGRESS),
     l.countP (fun s => s == PortState.PORTED)))

/-- Python's `sys.maxsize` on a 64-bit platform. -/
def sysMaxsize : Nat := 2 ^ 63 - 1

/-- Embeds `Mathlib3FileData.dep_counts_sort_key` (src/make_html.py:188-194):

    IN_PROGRESS_EQUIV_UNPORTED = 5
    if self.dep_counts is None: return sys.maxsize
    u, i, p = self.dep_counts
    return u*10000*IN_PROGRESS_EQUIV_UNPORTED+i*10000
-/
def dep_counts_sort_key (dc : Option (Nat × Nat × Nat)) : Nat :=
  match dc with
  | none => sysMaxsize
  | some (u, i, _p) => u * 10000 * 5 + i * 10000

/-- C5, counterexample: `sys.maxsize` is *not* the maximal key value, because
Python integers are unbounded: a file with `10^15` unported dependencies has a
strictly larger key than a file with no dependency data, so the latter would
not sort last.  (Unreachable in any realistic run, but the key function
itself admits it.) -/
theorem sort_key_none_not_maximal :
    dep_counts_sort_key none < dep_counts_sort_key (some (1000000000000000, 0, 0)) := by
  simp only [dep_counts_sort_key, sysMaxsize]
  norm_num

/-- C5, amended: for computed `dep_counts = (u, i, p)` the sort key equals
`u*10000*5 + i*10000`; for `dep_counts = None` it is `sys.maxsize = 2^63 - 1`,
which places such files last among all files whose computed key does not
exceed `2^63 - 1` (equivalently `5*u + i ≤ 922337203685477`, always true in a
realistic run). -/
theorem sort_key_spec (u i p : Nat) :
    dep_counts_sort_key (some (u, i, p)) = u * 10000 * 5 + i * 10000 ∧
    dep_counts_sort_key none = 2 ^ 63 - 1 ∧
    (u * 10000 * 5 + i * 10000 ≤ 2 ^ 63 - 1 →
      dep_counts_sort_key (some (u, i, p)) ≤ dep_counts_sort_key none) := by
  refine ⟨rfl, rfl, ?_⟩
  intro h
  simpa [dep_counts_sort_key, sysMaxsize] using h

/-- Witness for `sort_key_spec` at `u = 3, i = 2, p = 7`. -/
theorem sort_key_spec_witness :
    dep_counts_sort_key (some (3, 2, 7)) ≤ dep_counts_sort_key none :=
  (sort_key_spec 3 2 7).2.2 (by norm_num)

/-- C6: the sort key is monotonically non-decreasing in the unported count
with the in-progress count fixed, and in the in-progress count with the
unported count fixed (the ported count is irrelevant); and every file with
zero unported and zero in-progress dependencies has a strictly smaller key
than every file with at least one unported or in-progress dependency. -/
theorem sort_key_monotone (u u' i i' p p' q : Nat) :
    (u ≤ u' → dep_counts_sort_key (some (u, i, p)) ≤
      dep_counts_sort_key (some (u', i, p'))) ∧
    (i ≤ i' → dep_counts_sort_key (some (u, i, p)) ≤
      dep_counts_sort_key (some (u, i', p'))) ∧
    (1 ≤ u' + i' → dep_counts_sort_key (some (0, 0, q)) <
      dep_counts_sort_key (some (u', i', p'))) := by
  simp only [dep_counts_sort_key]
  omega

/-- Witness for `sort_key_monotone` at concrete counts. -/
theorem sort_key_monotone_witness :
    dep_counts_sort_key (some (1, 4, 0)) ≤ dep_counts_sort_key (some (2, 4, 9)) ∧
    dep_counts_sort_key (some (0, 0, 5)) < dep_counts_sort_key (some (0, 1, 0)) :=
  ⟨(sort_key_monotone 1 2 4 4 0 9 0).1 (by norm_num),
   (sort_key_monotone 0 0 0 1 5 0 5).2.2 (by norm_num)⟩

/-! ## Import graph construction (C3, C4): `parse_imports` (src/make_html.py:95-124)

Python string operations act on sequences of code points; we compute them on
the underlying character list of a Lean `String` (the same data) so that they
reduce inside the kernel. -/

/-- Python `s.endswith(t)`. -/
def strEndsWith (s t : String) : Bool := t.data.isSuffixOf s.data

/-- Python `s.startswith(t)`. -/
def strStartsWith (s t : String) : Bool := t.data.isPrefixOf s.data

/-- Python `s[:-n]` for `0 < n ≤ len(s)`: drop the last `n` characters. -/
def strDropRight (s : String) (n : Nat) : String := ⟨s.data.take (s.data.length - n)⟩

/-- Python `s[n:]`: drop the first `n` characters. -/
def strDrop (s : String) (n : Nat) : String := ⟨s.data.drop n⟩

/-- The longest prefix of characters satisfying `p` (the text matched by a
leading greedy `[^ ]*` when `p` accepts exactly the non-space characters). -/
def strTakeWhile (s : String) (p : Char → Bool) : String := ⟨s.data.takeWhile p⟩

/-- The number of characters of `s`, Python `len(s)`. -/
def strLength (s : String) : Nat := s.data.length

/-- `Path.with_suffix('')` on a path component produced by `glob('**/*.lean')`:
strips the trailing `.lean` extension (Python keeps a pure-suffix name such as
`".lean"` unchanged, since it has an empty stem). -/
def stripLeanExt (s : String) : String :=
  if strEndsWith s ".lean" && 5 < strLength s then strDropRight s 5 else s

/-- A source file found by `root_path.glob('**/*.lean')`: its path components
relative to `root_path` (the last one carries the `.lean` extension) and its
text split into lines. -/
structure SrcFile where
  parts : List String
  lines : List String
  deriving DecidableEq, Repr

/-- Strip the extension from the last path component, as
`path.with_suffix('')` does. -/
def stripLastExt : List String → List String
  | [] => []
  | [x] => [stripLeanExt x]
  | x :: y :: xs => x :: stripLastExt (y :: xs)

/-- Embeds `mk_label` (src/make_html.py:98-99):
`'.'.join(path.relative_to(root_path).with_suffix('').parts)`. -/
def mk_label (f : SrcFile) : String :=
  String.intercalate "." (stripLastExt f.parts)

/-- Embeds the exclusion test `path.parts[1] in ['tactic', 'meta']`
(src/make_html.py:104 and 109).  `path` is the *whole* path as globbed, i.e.
the components of `root_path` followed by the components relative to it, and
the test reads the component at index 1 of that whole path.  (For any
`root_path` with at least one component the index is in range, so Python
raises no IndexError; the `none` branch is unreachable there.) -/
def pyExcluded (root : List String) (f : SrcFile) : Bool :=
  match (root ++ f.parts).get? 1 with
  | some s => s == "tactic" || s == "meta"
  | none => false

/-- Embeds the regex match `re.compile(r"^import ([^ ]*)").match(line)`
(src/make_html.py:96, 113): the line must begin with the literal
`import ` and the captured token is the following maximal run of
non-space characters (possibly empty). -/
def parseImportLine (line : String) : Option String :=
  if strStartsWith line "import " then
    some (strTakeWhile (strDrop line 7) (fun c => c != ' '))
  else
    none

/-- The node set of the graph built by `parse_imports`
(src/make_html.py:103-106): one node per non-excluded `.lean` file, keyed by
its label. -/
def parse_imports_nodes (root : List String) (files : List SrcFile) : List String :=
  (files.filter (fun f => !pyExcluded root f)).map mk_label

/-- Embeds the import-resolution logic of `parse_imports`
(src/make_html.py:118-122):

    if imported not in graph.nodes:
        if imported + '.default' in graph.nodes:
            imported = imported + '.default'
        else:
            imported = 'lean_core.' + imported
-/
def resolveImport (nodes : List String) (t : String) : String :=
  if t ∈ nodes then t
  else if (t ++ ".default") ∈ nodes then t ++ ".default"
  else "lean_core." ++ t

/-- The edges contributed by one (non-excluded) file
(src/make_html.py:112-123): for every line matching the import pattern whose
token does not start with `tactic.` or `meta.`, one edge from the
resolved target to the label of the file. -/
def fileEdges (nodes : List String) (f : SrcFile) : List (String × String) :=
  (f.lines.filterMap parseImportLine).filterMap (fun t =>
    if strStartsWith t "tactic." || strStartsWith t "meta." then none
    else some (resolveImport nodes t, mk_label f))

/-- The edge list of the graph built by `parse_imports`
(src/make_html.py:108-123). -/
def parse_imports_edges (root : List String) (files : List SrcFile) :
    List (String × String) :=
  ((files.filter (fun f => !pyExcluded root f)).map
    (fun f => fileEdges (parse_imports_nodes root files) f)).flatten

/-- Three files under `root_path = src/`: `A.lean`, `A/default.lean` and
`B.lean` containing `import A`. -/
def bothKnownFiles : List SrcFile :=
  [⟨["A.lean"], []⟩, ⟨["A", "default.lean"], []⟩, ⟨["B.lean"], ["import A"]⟩]

/-- C3, counterexample: with both `A` and `A.default` known nodes, the token
`A` with `.default` appended *is* a known node, yet `import A` in `B.lean` is
not redirected: the code checks `imported not in graph.nodes` first, so the
edge produced is `A → B`, not `A.default → B` as the claim requires. -/
theorem resolve_no_redirect_when_token_known :
    ("A" ++ ".default") ∈ parse_imports_nodes ["src"] bothKnownFiles ∧
    parse_imports_edges ["src"] bothKnownFiles = [("A", "B")] ∧
    ("A.default", "B") ∉ parse_imports_edges ["src"] bothKnownFiles := by
  refine ⟨?_, ?_, ?_⟩ <;> decide

/-- Two files under `root_path = src/`: `A.lean` with no imports and `B.lean`
containing `import A`. -/
def twoFiles : List SrcFile :=
  [⟨["A.lean"], []⟩, ⟨["B.lean"], ["import A"]⟩]

/-- C3, amended: for every scanned file and matching import token, if the
token is *not* itself a known node but the token with `.default` appended is,
the reference is redirected to the suffixed node; if the token is a known
node it is kept unchanged (even when a `.default` variant also exists); if
neither is known it is prefixed `lean_core.`; and in every case the edge
added runs from the resolved target to the importing file, so `import A` in
`B.lean` yields exactly the edge `A → B`. -/
theorem import_resolution (nodes : List String) (t : String) :
    (t ∈ nodes → resolveImport nodes t = t) ∧
    (t ∉ nodes → (t ++ ".default") ∈ nodes →
      resolveImport nodes t = t ++ ".default") ∧
    (t ∉ nodes → (t ++ ".default") ∉ nodes →
      resolveImport nodes t = "lean_core." ++ t) ∧
    (∀ (root : List String) (files : List SrcFile) (f : SrcFile) (line : String),
      f ∈ files → pyExcluded root f = false → line ∈ f.lines →
      parseImportLine line = some t →
      strStartsWith t "tactic." = false → strStartsWith t "meta." = false →
      (resolveImport (parse_imports_nodes root files) t, mk_label f) ∈
        parse_imports_edges root files) ∧
    parse_imports_edges ["src"] twoFiles = [("A", "B")] := by
  refine ⟨?_, ?_, ?_, ?_, by decide⟩
  · intro ht
    simp [resolveImport, ht]
  · intro ht hd
    simp [resolveImport, ht, hd]
  · intro ht hd
    simp [resolveImport, ht, hd]
  · intro root files f line hf hexcl hline hparse h1 h2
    unfold parse_imports_edges
    rw [List.mem_flatten]
    refine ⟨fileEdges (parse_imports_nodes root files) f, ?_, ?_⟩
    · exact List.mem_map_of_mem _ (List.mem_filter.mpr ⟨hf, by simp [hexcl]⟩)
    · unfold fileEdges
      apply List.mem_filterMap.mpr
      refine ⟨t, List.mem_filterMap.mpr ⟨line, hline, hparse⟩, ?_⟩
      simp [h1, h2]

/-- Witness for `import_resolution`: its parts evaluated on the two-file
example (`nodes = ["A", "B"]`, token `A` from the line `import A`). -/
theorem import_resolution_witness :
    resolveImport ["A", "B"] "A" = "A" ∧
    resolveImport ["A.default", "B"] "A" = "A" ++ ".default" ∧
    resolveImport ["B"] "A" = "lean_core." ++ "A" ∧
    (resolveImport (parse_imports_nodes ["src"] twoFiles) "A",
        mk_label ⟨["B.lean"], ["import A"]⟩) ∈
      parse_imports_edges ["src"] twoFiles :=
  ⟨(import_resolution ["A", "B"] "A").1 (by decide),
   (import_resolution ["A.default", "B"] "A").2.1 (by decide) (by decide),
   (import_resolution ["B"] "A").2.2.1 (by decide) (by decide),
   (import_resolution (parse_imports_nodes ["src"] twoFiles) "A").2.2.2.1
      ["src"] twoFiles ⟨["B.lean"], ["import A"]⟩ "import A"
      (by decide) (by decide) (by decide) (by decide) (by decide) (by decide)⟩

/-- The failing input for C4: the graph builder is invoked as
`parse_imports(mathlib_dir / 'src')` with
`mathlib_dir = Path('build') / 'repos' / 'mathlib'` (src/make_html.py:261,
274, 277), so every globbed path starts with
`build/repos/mathlib/src/...` and `path.parts[1]` is always `'repos'`. -/
def actualRoot : List String := ["build", "repos", "mathlib", "src"]

/-- A file in the legacy `tactic` namespace, with an import in the `meta`
namespace. -/
def tacticFiles : List SrcFile :=
  [⟨["tactic", "core.lean"], ["import meta.expr", "import data.nat"]⟩]

/-- C4, evaluation at the failing input: with the root path the program
actually passes, the exclusion test compares `'repos'` against
`['tactic', 'meta']` and never fires, so the file `tactic/core.lean` *is*
given a node (`tactic.core`) and its non-excluded imports produce edges into
it — the claimed file-level exclusion does not happen.  (The import-token
exclusion does work: `import meta.expr` yields no edge.) -/
theorem tactic_file_not_excluded :
    pyExcluded actualRoot ⟨["tactic", "core.lean"], []⟩ = false ∧
    parse_imports_nodes actualRoot tacticFiles = ["tactic.core"] ∧
    parse_imports_edges actualRoot tacticFiles =
      [("lean_core.data.nat", "tactic.core")] ∧
    pyExcluded ["src"] ⟨["tactic", "core.lean"], []⟩ = true := by
  refine ⟨?_, ?_, ?_, ?_⟩ <;> decide

/-! ## Dependency / dependent aggregation (C7): `get_data` (src/make_html.py:305-315) -/

/-- `nx.descendants(graph, s)`: all nodes reachable from `s`, excluding `s`
itself. -/
def nxDescendants {V : Type} (R : V → V → Prop) (s : V) : Set V :=
  {m | m ≠ s ∧ Relation.ReflTransGen R s m}

/-- `nx.ancestors(graph, s)`: all nodes from which `s` is reachable,
excluding `s` itself. -/
def nxAncestors {V : Type} (R : V → V → Prop) (s : V) : Set V :=
  {m | m ≠ s ∧ Relation.ReflTransGen R m s}

/-- Embeds `f_data.dependents = [data[k] for k in nx.descendants(graph,
f_import) if k in data]` (src/make_html.py:309-311): the tracked files
reachable forward from a node.  `tracked` holds for the keys of `data`. -/
def dependentsOf {V : Type} (R : V → V → Prop) (tracked : V → Prop) (u : V) : Set V :=
  {m | m ∈ nxDescendants R u ∧ tracked m}

/-- Embeds `f_data.dependencies = [data[k] for k in nx.ancestors(graph,
f_import) if k in data]` (src/make_html.py:312-314): the tracked files
reachable backward from a node. -/
def dependenciesOf {V : Type} (R : V → V → Prop) (tracked : V → Prop) (u : V) : Set V :=
  {m | m ∈ nxAncestors R u ∧ tracked m}

/-- C7: for all tracked files `u` and `v` both present in the graph,
`v ∈ dependencies(u)` iff `u ∈ dependents(v)`.  (`inGraph` reflects that the
aggregator fills these fields only for files that are graph nodes,
src/make_html.py:308.) -/
theorem dependencies_dependents_consistent {V : Type} (R : V → V → Prop)
    (tracked inGraph : V → Prop) (u v : V)
    (hu : tracked u) (hv : tracked v) (hgu : inGraph u) (hgv : inGraph v) :
    v ∈ dependenciesOf R tracked u ↔ u ∈ dependentsOf R tracked v := by
  constructor
  · rintro ⟨⟨hne, hr⟩, -⟩
    exact ⟨⟨fun h => hne h.symm, hr⟩, hu⟩
  · rintro ⟨⟨hne, hr⟩, -⟩
    exact ⟨⟨fun h => hne h.symm, hr⟩, hv⟩

/-- The one-edge graph `0 → 1` on two nodes, used to instantiate the
graph-theoretic theorems. -/
def edge01 : Fin 2 → Fin 2 → Prop := fun a b => a = 0 ∧ b = 1

/-- Witness for `dependencies_dependents_consistent` on the one-edge graph,
with every node tracked. -/
theorem dependencies_dependents_consistent_witness :
    (0 : Fin 2) ∈ dependenciesOf edge01 (fun _ => True) 1 ↔
      (1 : Fin 2) ∈ dependentsOf edge01 (fun _ => True) 0 :=
  dependencies_dependents_consistent edge01 (fun _ => True) (fun _ => True) 1 0
    trivial trivial trivial trivial

/-! ## Fence-commit reconciliation (C8): `make_out_of_sync` (src/make_html.py:363-391) -/

/-- The base commit is expected to exist exactly for ported files:
"base commit is expected to be missing unless the file is in mathlib4
master" (src/make_html.py:380-381). -/
def base_commit_expected (st : PortState) : Bool := st = PortState.PORTED

/-- The sync commit is expected to exist for every file that has progressed
(src/make_html.py:385). -/
def sync_commit_expected (st : PortState) : Bool := st != PortState.UNPORTED

/-- Outcome of the fence-commit reconciliation for one file: either proceed
with a (base, sync) pair, or skip the file; `warned` records whether a
warning was logged. -/
inductive FenceOutcome
  | proceed (base sync : String) (warned : Bool)
  | skip (warned : Bool)
  deriving DecidableEq, Repr

/-- Embeds the `if/elif/elif` chain of `make_out_of_sync`
(src/make_html.py:379-391) on the resolved fence commits (`none` models an
unresolvable commit hash, for which `repo.commit` raised):

    if not base_commit and sync_commit:
        if f_status.state == PortState.PORTED: warn
        base_commit = sync_commit
    elif not sync_commit and base_commit:
        if f_status.state != PortState.UNPORTED: warn
        sync_commit = base_commit
    elif not sync_commit and not base_commit:
        if f_status.state != PortState.UNPORTED: warn
        continue

(a `git.Commit` object is always truthy, `None` is falsy; when both commits
resolved, no branch fires and the pair is used unchanged with no warning). -/
def reconcile_fences (base? sync? : Option String) (st : PortState) : FenceOutcome :=
  match base?, sync? with
  | none, some s => .proceed s s (base_commit_expected st)
  | some b, none => .proceed b b (sync_commit_expected st)
  | none, none => .skip (sync_commit_expected st)
  | some b, some s => .proceed b s false

/-- C8: if exactly one fence commit is unresolvable the other is substituted
for it, with a warning exactly when the missing fence was expected to exist
given the file's port state (a base commit is expected for `PORTED` files, a
sync commit for any file that is not `UNPORTED`); if both are unresolvable
the file is skipped — silently for an `UNPORTED` file, with a warning
otherwise; and when both resolve they are used unchanged without warning. -/
theorem fence_reconciliation (b s : String) (st : PortState) :
    reconcile_fences none (some s) st =
      FenceOutcome.proceed s s (base_commit_expected st) ∧
    reconcile_fences (some b) none st =
      FenceOutcome.proceed b b (sync_commit_expected st) ∧
    reconcile_fences none none st = FenceOutcome.skip (sync_commit_expected st) ∧
    reconcile_fences none none PortState.UNPORTED = FenceOutcome.skip false ∧
    (st ≠ PortState.UNPORTED → reconcile_fences none none st = FenceOutcome.skip true) ∧
    reconcile_fences (some b) (some s) st = FenceOutcome.proceed b s false := by
  refine ⟨rfl, rfl, rfl, rfl, ?_, rfl⟩
  intro h
  cases st
  · exact absurd rfl h
  · rfl
  · rfl

/-- Witness for `fence_reconciliation` at concrete commits and state. -/
theorem fence_reconciliation_witness :
    reconcile_fences none none PortState.PORTED = FenceOutcome.skip true :=
  (fence_reconciliation "b" "s" PortState.PORTED).2.2.2.2.1 (by decide)

/-! ## Label fetching under rate limits (C9): `github_labels` (src/make_html.py:70-92) -/

/-- A label as returned by the issue tracker. -/
structure RawLabel where
  name : String
  color : String
  deriving DecidableEq, Repr

/-- A rendered label with its derived text color. -/
structure Label where
  name : String
  color : String
  text_color : String
  deriving DecidableEq, Repr

/-- Result of the remote label query for a pull request: either the raw
labels, or `github.RateLimitExceededException`. -/
inductive LabelFetch
  | ok (labels : List RawLabel)
  | rateLimited
  deriving DecidableEq, Repr

/-- Embeds `github_labels` (src/make_html.py:70-92).  `textColor` abstracts
`text_color_of_color` (whose floating-point luminance arithmetic is
irrelevant to the error handling); `gitpodHost` is `'GITPOD_HOST' in
os.environ`, the recognized constrained environment.  The returned `Bool`
records whether `warnings.warn` was called; a propagated
`RateLimitExceededException` is the `Except.error` case. -/
def github_labels (textColor : String → String) (fetched : LabelFetch)
    (gitpodHost : Bool) : Except Unit (List Label × Bool) :=
  match fetched with
  | .ok raw => .ok (raw.map (fun l => ⟨l.name, l.color, textColor l.color⟩), false)
  | .rateLimited => if gitpodHost then .ok ([], true) else .error ()

/-- C9: on rate-limit exhaustion the result is an empty label list with a
warning if and only if the run is in the recognized constrained environment
(`GITPOD_HOST` set); otherwise the rate-limit error propagates.  A
successful fetch never warns and never fails. -/
theorem rate_limit_handling (textColor : String → String) (raw : List RawLabel) :
    github_labels textColor .rateLimited true = .ok ([], true) ∧
    github_labels textColor .rateLimited false = .error () ∧
    (∀ gp : Bool, github_labels textColor .rateLimited gp = .ok ([], true) ↔ gp = true) ∧
    github_labels textColor (.ok raw) true =
      .ok (raw.map (fun l => ⟨l.name, l.color, textColor l.color⟩), false) ∧
    github_labels textColor (.ok raw) false =
      .ok (raw.map (fun l => ⟨l.name, l.color, textColor l.color⟩), false) := by
  refine ⟨rfl, rfl, ?_, rfl, rfl⟩
  intro gp
  cases gp
  · exact ⟨fun h => by simpa [github_labels] using h, fun h => by simp at h⟩
  · exact ⟨fun _ => rfl, fun _ => rfl⟩

/-! ## Commit existence (C10): `commit_exists` (src/make_html.py:226-238) -/

/-- Embeds `get_repo_by_github_name` (src/make_html.py:204-211): the two
recognized repository names map to local clones, anything else raises
`KeyError` (modelled as `none`). -/
def get_repo_by_github_name (url : String) : Option String :=
  if url = "leanprover-community/mathlib" then some url
  else if url = "leanprover-community/mathlib4" then some url
  else none

/-- Embeds `commit_exists` (src/make_html.py:226-238): a `KeyError` from
`get_repo_by_github_name` yields `True`; otherwise the result is whether
`repo.commit(src.commit)` resolves (`resolves`, with `False` for the
`ValueError` branch). -/
def commit_exists (resolves : String → String → Bool) (src : Source) : Bool :=
  match get_repo_by_github_name src.repo with
  | none => true
  | some r => resolves r src.commit

/-- C10: a source record naming an unrecognized repository is always treated
as existing, and `commit_exists` returns `False` only when the repository is
recognized and resolving the commit hash fails. -/
theorem commit_exists_unrecognized (resolves : String → String → Bool) (src : Source) :
    (src.repo ≠ "leanprover-community/mathlib" →
      src.repo ≠ "leanprover-community/mathlib4" →
      commit_exists resolves src = true) ∧
    (commit_exists resolves src = false →
      get_repo_by_github_name src.repo = some src.repo ∧
      resolves src.repo src.commit = false) := by
  constructor
  · intro h1 h2
    simp [commit_exists, get_repo_by_github_name, h1, h2]
  · intro h
    have hx : ∀ u x, get_repo_by_github_name u = some x → x = u := by
      intro u x hux
      unfold get_repo_by_github_name at hux
      split at hux
      · exact (Option.some.inj hux).symm
      · split at hux
        · exact (Option.some.inj hux).symm
        · exact absurd hux (by simp)
    unfold commit_exists at h
    split at h
    · exact absurd h (by simp)
    · next r heq =>
      have hr := hx _ _ heq
      subst hr
      exact ⟨heq, h⟩

/-- Witness for `commit_exists_unrecognized`: a record pointing at a fork is
reported as existing even though nothing resolves. -/
theorem commit_exists_unrecognized_witness :
    commit_exists (fun _ _ => false) ⟨"someone/mathlib-fork", "deadbeef"⟩ = true :=
  (commit_exists_unrecognized (fun _ _ => false)
      ⟨"someone/mathlib-fork", "deadbeef"⟩).1 (by decide) (by decide)

/-! ## Transitive reduction (C2): `nx.transitive_reduction` (src/make_html.py:278) -/

/-- A directed graph is acyclic: no node reaches itself by a nonempty path. -/
def Acyclic {V : Type} (E : V → V → Prop) : Prop :=
  ∀ v : V, ¬ Relation.TransGen E v v

/-- Modelled from the spec: `nx.transitive_reduction` is a networkx library
call (src/make_html.py:278), not code of this repository.  On a directed
acyclic graph it keeps exactly the edges `(u, v)` such that `v` is not
reachable by a nonempty path from any successor of `u` — equivalently, there
is no path of length ≥ 2 from `u` to `v`.  The spec describes the result as
"the unique minimal-edge-count subgraph with identical reachability, defined
only for directed acyclic graphs"; `transitive_reduction_correct` below
proves reachability preservation and edge-minimality of this
characterization. -/
def transitive_reduction {V : Type} (E : V → V → Prop) (u v : V) : Prop :=
  E u v ∧ ¬ ∃ w, E u w ∧ Relation.TransGen E w v

/-- The graph `R` with the single edge `(a, b)` removed. -/
def removeEdge {V : Type} (R : V → V → Prop) (a b : V) : V → V → Prop :=
  fun u v => R u v ∧ ¬(u = a ∧ v = b)

/-- The nodes strictly beyond `u` and weakly before `v`; its cardinality is
the induction measure for `transitive_reduction_lift`. -/
def strictIvl {V : Type} (E : V → V → Prop) (u v : V) : Set V :=
  {x | Relation.TransGen E u x ∧ Relation.ReflTransGen E x v}

/-- Every edge of an acyclic graph on a finite node set is subsumed by a path
in the transitive reduction. -/
theorem transitive_reduction_lift {V : Type} [Finite V] (E : V → V → Prop)
    (hA : Acyclic E) :
    ∀ (n : Nat) (u v : V), (strictIvl E u v).ncard ≤ n → E u v →
      Relation.ReflTransGen (transitive_reduction E) u v := by
  intro n
  induction n with
  | zero =>
    intro u v hcard hE
    exfalso
    have hv : v ∈ strictIvl E u v :=
      ⟨Relation.TransGen.single hE, Relation.ReflTransGen.refl⟩
    have hpos : 0 < (strictIvl E u v).ncard :=
      (Set.ncard_pos (Set.toFinite _)).mpr ⟨v, hv⟩
    omega
  | succ n ih =>
    intro u v hcard hE
    by_cases hred : transitive_reduction E u v
    · exact Relation.ReflTransGen.single hred
    · have hw : ∃ w, E u w ∧ Relation.TransGen E w v := by
        by_contra hno
        exact hred ⟨hE, hno⟩
      obtain ⟨w, hEuw, hwv⟩ := hw
      have hvmem : v ∈ strictIvl E u v :=
        ⟨Relation.TransGen.single hE, Relation.ReflTransGen.refl⟩
      have h1 : Relation.ReflTransGen (transitive_reduction E) u w := by
        have hsub : strictIvl E u w ⊂ strictIvl E u v := by
          rw [ssubset_iff_subset_not_subset]
          constructor
          · rintro x ⟨hx1, hx2⟩
            exact ⟨hx1, hx2.trans hwv.to_reflTransGen⟩
          · intro hsup
            obtain ⟨-, hvw⟩ := hsup hvmem
            exact hA v (Relation.TransGen.trans_right hvw hwv)
        have hlt : (strictIvl E u w).ncard < (strictIvl E u v).ncard :=
          Set.ncard_lt_ncard hsub (Set.toFinite _)
        exact ih u w (by omega) hEuw
      have h2 : ∀ x, Relation.ReflTransGen E x v → Relation.ReflTransGen E w x →
          Relation.ReflTransGen (transitive_reduction E) x v := by
        intro x hxv
        induction hxv using Relation.ReflTransGen.head_induction_on with
        | refl => exact fun _ => Relation.ReflTransGen.refl
        | head hac hcv ihc =>
          rename_i a c
          intro hwa
          have hwc : Relation.ReflTransGen E w c := hwa.tail hac
          have hac' : Relation.ReflTransGen (transitive_reduction E) a c := by
            have hsub : strictIvl E a c ⊂ strictIvl E u v := by
              rw [ssubset_iff_subset_not_subset]
              constructor
              · rintro y ⟨hy1, hy2⟩
                refine ⟨?_, hy2.trans hcv⟩
                exact Relation.TransGen.trans
                  (Relation.TransGen.trans_left (Relation.TransGen.single hEuw) hwa) hy1
              · intro hsup
                obtain ⟨haw, -⟩ :=
                  hsup ⟨Relation.TransGen.single hEuw, hwa.trans (hcv.head hac)⟩
                exact hA a (Relation.TransGen.trans_left haw hwa)
            have hlt : (strictIvl E a c).ncard < (strictIvl E u v).ncard :=
              Set.ncard_lt_ncard hsub (Set.toFinite _)
            exact ih a c (by omega) hac
          exact hac'.trans (ihc hwc)
      exact h1.trans (h2 w hwv.to_reflTransGen Relation.ReflTransGen.refl)

/-- Reachability is the same in the reduced and the original graph. -/
theorem transitive_reduction_reach {V : Type} [Finite V] (E : V → V → Prop)
    (hA : Acyclic E) (u v : V) :
    Relation.ReflTransGen (transitive_reduction E) u v ↔
      Relation.ReflTransGen E u v := by
  constructor
  · exact Relation.ReflTransGen.mono (fun _ _ hh => hh.1)
  · intro h
    induction h with
    | refl => exact Relation.ReflTransGen.refl
    | tail hab hbc ihb =>
      exact ihb.trans (transitive_reduction_lift E hA _ _ _ le_rfl hbc)

/-- Removing any edge of the reduction loses the reachability of its own
endpoints. -/
theorem transitive_reduction_minimal {V : Type} (E : V → V → Prop)
    (hA : Acyclic E) (u v : V) (h : transitive_reduction E u v) :
    ¬ Relation.ReflTransGen (removeEdge (transitive_reduction E) u v) u v := by
  intro hreach
  have hne : u ≠ v := by
    intro he
    subst he
    exact hA u (Relation.TransGen.single h.1)
  rcases Relation.ReflTransGen.cases_head hreach with heq | ⟨c, hc, hcv⟩
  · exact hne heq
  · have hcE : E u c := hc.1.1
    have hcne : c ≠ v := fun he => hc.2 ⟨rfl, he⟩
    have hcvE : Relation.ReflTransGen E c v :=
      Relation.ReflTransGen.mono (fun _ _ hh => hh.1.1) hcv
    rcases Relation.reflTransGen_iff_eq_or_transGen.mp hcvE with heq | htrans
    · exact hcne heq.symm
    · exact h.2 ⟨c, hcE, htrans⟩

/-- C2: for every acyclic graph on a finite node set, the transitive
reduction preserves reachability — `u` reaches `v` in the reduced graph iff
it does in the original — and is edge-minimal: every edge `(u, v)` of the
reduced graph witnesses a reachable pair that stops being reachable when
that edge is removed. -/
theorem transitive_reduction_correct {V : Type} [Finite V] (E : V → V → Prop)
    (hA : Acyclic E) :
    (∀ u v, Relation.ReflTransGen (transitive_reduction E) u v ↔
      Relation.ReflTransGen E u v) ∧
    (∀ u v, transitive_reduction E u v →
      Relation.ReflTransGen E u v ∧
      ¬ Relation.ReflTransGen (removeEdge (transitive_reduction E) u v) u v) :=
  ⟨fun u v => transitive_reduction_reach E hA u v,
   fun u v h => ⟨Relation.ReflTransGen.single h.1,
     transitive_reduction_minimal E hA u v h⟩⟩

/-- Any nonempty `edge01`-path runs from `0` to `1`. -/
theorem edge01_endpoints :
    ∀ a b : Fin 2, Relation.TransGen edge01 a b → a = 0 ∧ b = 1 := by
  intro a b h
  induction h with
  | single h1 => exact h1
  | tail h1 h2 ih => exact ⟨ih.1, h2.2⟩

/-- The one-edge graph is acyclic. -/
theorem edge01_acyclic : Acyclic edge01 := by
  intro v h
  have hv := edge01_endpoints v v h
  exact absurd (hv.1.symm.trans hv.2) (by decide)

/-- Witness for `transitive_reduction_correct` on the concrete one-edge
graph `0 → 1`. -/
theorem transitive_reduction_correct_witness :
    (∀ u v, Relation.ReflTransGen (transitive_reduction edge01) u v ↔
      Relation.ReflTransGen edge01 u v) ∧
    (∀ u v, transitive_reduction edge01 u v →
      Relation.ReflTransGen edge01 u v ∧
      ¬ Relation.ReflTransGen (removeEdge (transitive_reduction edge01) u v) u v) :=
  transitive_reduction_correct edge01 edge01_acyclic
